import Mathlib

/-!
Shallow embedding of the statistics synchronization and delta-archival routine
of the social-media analytics tool, together with the script-embedding
assignment handler.

The embedding follows `src/api/src/services/youtube.service.ts`:
* `parseDuration`, `filterShorts`, `getAllShortsFromChannel`, `getVideoDetails`
  from the `YouTubeService` class;
* the per-video loop of the `retrieveChannelShorts` controller (the version
  that archives a `youtube_video_stats` row before updating the
  `youtube_videos` row), with the snapshot-differ block extracted as
  `buildSnapshot`;
* `assignVideoToEmbedding` from
  `src/api/src/controllers/video-embeddings.controller.ts`.

External effects are made explicit:
* HTTP calls become function parameters (`api`, `dapi`, page lists); a `none`
  result models the corresponding axios call throwing.
* The wall clock becomes a timeline `tl : Nat → Nat` of millisecond readings:
  the k-th evaluation of `new Date()` / `Date.now()` in the run returns
  `tl k`.  (The clock reading inside `transformVideoData` is not modelled;
  the loop consumes already-transformed `VideoData` values.)
* Data-store writes can be made to fail per video through a `FailureSpec`,
  modelling the error results the supabase client returns.
JavaScript numbers are modelled as `Nat` / `Int` / `ℚ`; nullable columns as
`Option`; JS falsy checks on numbers are made explicit (`= 0` tests).
-/

namespace SMAT

/-! ## Duration parsing (`YouTubeService.parseDuration`)

The source matches the string against the regular expression
`PT(?:(\d+)H)?(?:(\d+)M)?(?:(\d+)S)?` and sums the captured components.
The regex engine finds the first occurrence of the literal `PT` (all three
groups are optional, so the match succeeds exactly at the first `PT`); each
group consumes a maximal digit run only when it is immediately followed by
the component letter, otherwise the group is skipped.  A string without
`PT` does not match and the function returns 0. -/

/-- Split a maximal leading run of decimal digits off a character list. -/
def leadingDigits : List Char → List Char × List Char
  | [] => ([], [])
  | c :: cs =>
    if c.isDigit then
      let (ds, rest) := leadingDigits cs
      (c :: ds, rest)
    else ([], c :: cs)

/-- Numeric value of a digit run (the JS `parseInt` on a captured group). -/
def natOfDigits (ds : List Char) : Nat :=
  ds.foldl (fun n c => n * 10 + (c.toNat - 48)) 0

/-- The suffix following the first occurrence of the literal `PT`,
if any (the position at which the regex match succeeds). -/
def afterPT : List Char → Option (List Char)
  | [] => none
  | 'P' :: 'T' :: rest => some rest
  | _ :: rest => afterPT rest

/-- One optional regex group `(?:(\d+)X)?`: consume a maximal digit run
followed by the component letter `x`, else consume nothing. -/
def parseComp (x : Char) (s : List Char) : Nat × List Char :=
  match leadingDigits s with
  | ([], _) => (0, s)
  | (ds, r :: rs) => if r = x then (natOfDigits ds, rs) else (0, s)
  | (_, []) => (0, s)

/-- The function `YouTubeService.parseDuration`: ISO-8601-style duration to seconds;
an unparseable string (no `PT`) yields 0. -/
def parseDuration (s : String) : Nat :=
  match afterPT s.data with
  | none => 0
  | some rest =>
    let (h, r1) := parseComp 'H' rest
    let (m, r2) := parseComp 'M' r1
    let (sec, _) := parseComp 'S' r2
    h * 3600 + m * 60 + sec

/-! ## Shorts filtering (`YouTubeService.filterShorts`) -/

/-- One item of a `videos?part=contentDetails` response. -/
structure VideoItem where
  id : String
  /-- Field `contentDetails.duration`; the source replaces a falsy value by
  `"PT0S"`, which for strings means the empty string. -/
  duration : String
  deriving DecidableEq, Repr

/-- Fuel-based worker for `chunk50`; the fuel starts at the list length and
never runs out (each step drops at least one element), it only keeps the
recursion structural so that the function reduces in the kernel. -/
def chunk50Fuel : Nat → List α → List (List α)
  | _, [] => []
  | 0, _ => []
  | n + 1, l => l.take 50 :: chunk50Fuel n (l.drop 50)

/-- The per-request batching: groups of at most 50 ids
(`for (let i = 0; i < videoIds.length; i += 50)` with `slice`). -/
def chunk50 (l : List α) : List (List α) :=
  chunk50Fuel l.length l

/-- The body of the per-item loop: ids of response items whose parsed
duration (defaulted to "PT0S" when falsy) is at most 60 seconds. -/
def shortIdsOfItems (items : List VideoItem) : List String :=
  (items.filter
    (fun it => parseDuration (if it.duration = "" then "PT0S" else it.duration) ≤ 60)).map
    (fun it => it.id)

/-- The batch loop of `filterShorts`; a `none` API result models the axios
call throwing, which aborts the whole loop (the surrounding `try`). -/
def filterShortsGo (api : List String → Option (List VideoItem)) :
    List (List String) → List String → Option (List String)
  | [], acc => some acc
  | b :: bs, acc =>
    match api b with
    | none => none
    | some items => filterShortsGo api bs (acc ++ shortIdsOfItems items)

/-- The function `YouTubeService.filterShorts`: on any batch failure the `catch` block
returns the empty list, discarding ids accepted from earlier batches. -/
def filterShorts (api : List String → Option (List VideoItem))
    (videoIds : List String) : List String :=
  match filterShortsGo api (chunk50 videoIds) [] with
  | some ids => ids
  | none => []

/-! ## Pagination (`YouTubeService.getAllShortsFromChannel`) -/

/-- The pagination loop; each element of `pages` is one search response
(`none` models the axios search call throwing, which the `catch` re-throws
as a hard failure). -/
def getAllShortsGo (api : List String → Option (List VideoItem)) :
    List (Option (List String)) → List String → Except String (List String)
  | [], acc => Except.ok acc
  | none :: _, _ => Except.error "Failed to fetch shorts"
  | some ids :: rest, acc =>
    getAllShortsGo api rest (acc ++ (if ids = [] then [] else filterShorts api ids))

/-- The function `YouTubeService.getAllShortsFromChannel`. -/
def getAllShortsFromChannel (pages : List (Option (List String)))
    (api : List String → Option (List VideoItem)) : Except String (List String) :=
  getAllShortsGo api pages []

/-! ## Detail fetch (`YouTubeService.getVideoDetails`)

The raw response items are immediately transformed by
`transformVideoData` in the controller loop; the model works with the
transformed shape directly, so the detail API parameter `dapi` returns
`VideoData` values.  A `none` batch result models the per-batch `catch`
(the batch is logged and skipped). -/

/-- The result of `transformVideoData` restricted to the fields the
persistence loop and the claims depend on. -/
structure VideoData where
  video_id : String
  view_count : Nat
  like_count : Nat
  comment_count : Nat
  favorite_count : Nat
  engagement_rate : Option ℚ
  views_per_day : ℚ
  days_since_published : Nat
  deriving DecidableEq, Repr

/-- The function `YouTubeService.getVideoDetails`: failed batches are skipped, successful
batches are concatenated. -/
def getVideoDetails (dapi : List String → Option (List VideoData))
    (videoIds : List String) : List VideoData :=
  if videoIds = [] then []
  else
    (chunk50 videoIds).foldl
      (fun acc b =>
        match dapi b with
        | none => acc
        | some vs => acc ++ vs) []

/-! ## Data model (`youtube_videos` and `youtube_video_stats` rows) -/

/-- A `youtube_videos` row, restricted to the columns the sync loop and the
claims depend on.  Timestamps are milliseconds since the epoch. -/
structure VideoRecord where
  video_id : String
  view_count : Nat
  like_count : Nat
  comment_count : Nat
  favorite_count : Nat
  engagement_rate : Option ℚ
  views_per_day : ℚ
  days_since_published : Nat
  first_synced_at : Nat
  last_synced_at : Nat
  /-- Column `updated_at`: the insert payload does not set it, so it is absent
  (`none`) until the first update. -/
  updated_at : Option Nat
  sync_count : Nat
  deriving DecidableEq, Repr

/-- A `youtube_video_stats` row (append-only stats archive). -/
structure StatsSnapshot where
  video_id : String
  recorded_at : Nat
  view_count : Nat
  like_count : Nat
  comment_count : Nat
  favorite_count : Nat
  view_growth : Int
  like_growth : Int
  comment_growth : Int
  engagement_rate : Option ℚ
  views_per_hour : Option ℚ
  days_since_published : Option Nat
  deriving DecidableEq, Repr

/-- The persisted state the sync run reads and writes. -/
structure Store where
  videos : List VideoRecord
  stats : List StatsSnapshot
  deriving DecidableEq, Repr

/-- The single-row lookup by video id on `youtube_videos`. -/
def findVideo (l : List VideoRecord) (vid : String) : Option VideoRecord :=
  l.find? (fun r => r.video_id = vid)

/-- All archived stats rows of one video, in insertion order. -/
def statsFor (stats : List StatsSnapshot) (vid : String) : List StatsSnapshot :=
  stats.filter (fun s => s.video_id = vid)

/-! ## Snapshot differ (the archival block of `retrieveChannelShorts`) -/

/-- The order-by-recorded-at-descending, limit-1, single-row query: the
stats row of this video with the largest `recorded_at` (first such row in
insertion order on ties), or `none` when the video has no archived rows. -/
def latestSnapshot (stats : List StatsSnapshot) (vid : String) : Option StatsSnapshot :=
  (statsFor stats vid).foldl
    (fun acc s =>
      match acc with
      | none => some s
      | some b => if b.recorded_at < s.recorded_at then some s else some b)
    none

/-- The stats row the archival block builds for an existing record `ex` at
run timestamp `ts` (milliseconds): pre-update counts, growth against the
most recent archived row, and `views_per_hour` with its truthiness guards.
JS `x || null` on a number is `none` when `x` is 0 or null. -/
def buildSnapshot (stats : List StatsSnapshot) (ex : VideoRecord) (ts : Nat) :
    StatsSnapshot :=
  let prev := latestSnapshot stats ex.video_id
  let viewGrowth : Int :=
    match prev with
    | none => 0
    | some p => (ex.view_count : Int) - (p.view_count : Int)
  let likeGrowth : Int :=
    match prev with
    | none => 0
    | some p => (ex.like_count : Int) - (p.like_count : Int)
  let commentGrowth : Int :=
    match prev with
    | none => 0
    | some p => (ex.comment_count : Int) - (p.comment_count : Int)
  let viewsPerHour : Option ℚ :=
    match prev with
    | some p =>
      let timeDiffHours : ℚ := ((ts : ℚ) - (p.recorded_at : ℚ)) / (1000 * 60 * 60)
      if 0 < timeDiffHours then some ((viewGrowth : ℚ) / timeDiffHours) else none
    | none =>
      if ex.views_per_day = 0 then none else some (ex.views_per_day / 24)
  { video_id := ex.video_id
    recorded_at := ts
    view_count := ex.view_count
    like_count := ex.like_count
    comment_count := ex.comment_count
    favorite_count := ex.favorite_count
    view_growth := viewGrowth
    like_growth := likeGrowth
    comment_growth := commentGrowth
    engagement_rate :=
      match ex.engagement_rate with
      | none => none
      | some q => if q = 0 then none else some q
    views_per_hour := viewsPerHour
    days_since_published :=
      if ex.days_since_published = 0 then none else some ex.days_since_published }

/-! ## Per-video persistence loop of `retrieveChannelShorts` -/

/-- Injected data-store outcomes for one loop iteration: `throws` models an
unexpected exception reaching the outer per-video `catch` (before any
write); `archiveFails` models the `youtube_video_stats` insert returning an
error; `writeFails` models the `youtube_videos` update/insert returning an
error. -/
structure FailureSpec where
  throws : Bool
  archiveFails : Bool
  writeFails : Bool
  deriving DecidableEq, Repr

/-- A fully successful iteration. -/
def noFailure : FailureSpec := ⟨false, false, false⟩

/-- The run counters of `retrieveChannelShorts`. -/
structure Counters where
  videosInserted : Nat
  videosUpdated : Nat
  statsArchived : Nat
  errors : Nat
  deriving DecidableEq, Repr

/-- The loop state: the store, the counters, and the index of the next
wall-clock reading on the timeline. -/
structure RunState where
  store : Store
  counters : Counters
  reads : Nat
  deriving DecidableEq, Repr

/-- The updated `youtube_videos` row: the update payload spreads the
transformed data (overwriting every metric column), sets `updated_at` and
`last_synced_at` to two fresh clock readings, sets
`sync_count = (existing.sync_count || 1) + 1`, and does not contain
`first_synced_at`, which therefore keeps its stored value. -/
def updatedRecord (v : VideoData) (old : VideoRecord) (updatedAt lastSynced : Nat) :
    VideoRecord :=
  { video_id := v.video_id
    view_count := v.view_count
    like_count := v.like_count
    comment_count := v.comment_count
    favorite_count := v.favorite_count
    engagement_rate := v.engagement_rate
    views_per_day := v.views_per_day
    days_since_published := v.days_since_published
    first_synced_at := old.first_synced_at
    last_synced_at := lastSynced
    updated_at := some updatedAt
    sync_count := (if old.sync_count = 0 then 1 else old.sync_count) + 1 }

/-- The inserted `youtube_videos` row for a new video: the payload sets
`first_synced_at` and `last_synced_at` to two fresh clock readings and no
`sync_count`.

`sync_count := 1` is modelled from the spec: the database schema is not in
the source tree, and the spec states that `sync_count` starts at 1 on
insert (the column default). -/
def insertedRecord (v : VideoData) (firstSynced lastSynced : Nat) : VideoRecord :=
  { video_id := v.video_id
    view_count := v.view_count
    like_count := v.like_count
    comment_count := v.comment_count
    favorite_count := v.favorite_count
    engagement_rate := v.engagement_rate
    views_per_day := v.views_per_day
    days_since_published := v.days_since_published
    first_synced_at := firstSynced
    last_synced_at := lastSynced
    updated_at := none
    sync_count := 1 }

/-- One iteration of the per-video loop of `retrieveChannelShorts`:
look up the existing record; if present, archive a stats row (best-effort)
and update the record; otherwise insert a new record.  `tl` is the
wall-clock timeline, `snapshotTs` the run timestamp captured before the
loop. -/
def processVideo (tl : Nat → Nat) (snapshotTs : Nat)
    (vf : VideoData × FailureSpec) (s : RunState) : RunState :=
  let v := vf.1
  let f := vf.2
  if f.throws then
    { s with counters.errors := s.counters.errors + 1 }
  else
    match findVideo s.store.videos v.video_id with
    | some old =>
      let snap := buildSnapshot s.store.stats old snapshotTs
      let s1 :=
        if f.archiveFails then s
        else
          { s with
            store.stats := s.store.stats ++ [snap]
            counters.statsArchived := s.counters.statsArchived + 1 }
      let updatedAt := tl s1.reads
      let lastSynced := tl (s1.reads + 1)
      if f.writeFails then
        { s1 with
          counters.errors := s1.counters.errors + 1
          reads := s1.reads + 2 }
      else
        { s1 with
          store.videos :=
            s1.store.videos.map
              (fun r =>
                if r.video_id = v.video_id then updatedRecord v old updatedAt lastSynced
                else r)
          counters.videosUpdated := s1.counters.videosUpdated + 1
          reads := s1.reads + 2 }
    | none =>
      let firstSynced := tl s.reads
      let lastSynced := tl (s.reads + 1)
      if f.writeFails then
        { s with
          counters.errors := s.counters.errors + 1
          reads := s.reads + 2 }
      else
        { s with
          store.videos := s.store.videos ++ [insertedRecord v firstSynced lastSynced]
          counters.videosInserted := s.counters.videosInserted + 1
          reads := s.reads + 2 }

/-- The `for (const video of videos)` loop. -/
def runLoop (tl : Nat → Nat) (snapshotTs : Nat) :
    List (VideoData × FailureSpec) → RunState → RunState
  | [], s => s
  | vf :: rest, s => runLoop tl snapshotTs rest (processVideo tl snapshotTs vf s)

/-- The JSON body `retrieveChannelShorts` responds with; `none` fields are
keys the early empty-channel response does not contain. -/
structure Summary where
  videosProcessed : Nat
  videosInserted : Option Nat
  videosUpdated : Option Nat
  statsArchived : Option Nat
  errors : Option Nat
  deriving DecidableEq, Repr

/-- The `retrieveChannelShorts` controller: list short ids (fatal on search
failure), early-return on an empty id list, fetch details, capture the run
timestamp (clock reading 0), process every video, and respond with the run
summary.  `fail i` is the injected store outcome for the i-th video. -/
def retrieveChannelShorts (tl : Nat → Nat)
    (pages : List (Option (List String)))
    (api : List String → Option (List VideoItem))
    (dapi : List String → Option (List VideoData))
    (fail : Nat → FailureSpec)
    (store : Store) : Except String (Summary × Store) :=
  match getAllShortsFromChannel pages api with
  | Except.error e => Except.error e
  | Except.ok videoIds =>
    if videoIds = [] then
      Except.ok
        ({ videosProcessed := 0
           videosInserted := none
           videosUpdated := none
           statsArchived := none
           errors := none }, store)
    else
      let videos := getVideoDetails dapi videoIds
      let snapshotTs := tl 0
      let pairs := videos.zip ((List.range videos.length).map fail)
      let final :=
        runLoop tl snapshotTs pairs
          { store := store, counters := ⟨0, 0, 0, 0⟩, reads := 1 }
      Except.ok
        ({ videosProcessed := videos.length
           videosInserted := some final.counters.videosInserted
           videosUpdated := some final.counters.videosUpdated
           statsArchived := some final.counters.statsArchived
           errors := some final.counters.errors }, final.store)

/-! ## Script-embedding assignment (`assignVideoToEmbedding`)

From `src/api/src/controllers/video-embeddings.controller.ts`.  Request
parameters are strings; a missing/falsy parameter is modelled as the empty
string. -/

/-- A `video_embeddings` row restricted to identity and assignment state;
the free-text creative columns play no role in the assignment handler. -/
structure ScriptEmbedding where
  id : String
  video_id : Option String
  deriving DecidableEq, Repr

/-- The tables the embeddings controller touches: the `youtube_videos` ids
and the `video_embeddings` rows. -/
structure EmbStore where
  videos : List String
  embeddings : List ScriptEmbedding
  deriving DecidableEq, Repr

/-- PostgREST `.single()`: data only when the result set has exactly one
row; zero rows (PGRST116) or several rows produce an error and null data. -/
def singleRow : List α → Option α
  | [e] => some e
  | _ => none

/-- The HTTP outcome of the assignment handler. -/
inductive AssignOutcome where
  | badRequest
  | notFound
  /-- The 400 response `Video already has an embedding assigned`. -/
  | conflict
  /-- The update matched no row (or several): `.single()` after the update
  errors and the handler falls to `next(error)`. -/
  | serverError
  | ok
  deriving DecidableEq, Repr

/-- The number of embedding rows assigned to a given video id. -/
def assignedCount (l : List ScriptEmbedding) (vid : String) : Nat :=
  (l.filter (fun e => e.video_id = some vid)).length

/-- The application-level invariant: at most one embedding row holds any
given non-null `video_id`. -/
def AtMostOneAssigned (l : List ScriptEmbedding) : Prop :=
  ∀ vid : String, assignedCount l vid ≤ 1

instance : DecidablePred AtMostOneAssigned := fun l => by
  unfold AtMostOneAssigned
  have : (∀ e ∈ l, ∀ vid, e.video_id = some vid → assignedCount l vid ≤ 1) ↔
      ∀ vid : String, assignedCount l vid ≤ 1 := by
    constructor
    · intro h vid
      by_cases hx : ∃ e ∈ l, e.video_id = some vid
      · obtain ⟨e, he, hev⟩ := hx
        exact h e he vid hev
      · have : assignedCount l vid = 0 := by
          unfold assignedCount
          rw [List.length_eq_zero, List.filter_eq_nil_iff]
          intro e he
          simp only [decide_eq_true_eq]
          intro hv
          exact hx ⟨e, he, hv⟩
        omega
    · intro h e _ vid _
      exact h vid
  exact decidable_of_iff _ this

/-- The update write on the rows whose id equals the target id, followed
by a single-row select: every row with the given id is updated (the write
happens regardless), and the response is an error unless exactly one row
matched. -/
def assignApplyUpdate (st : EmbStore) (embedding_id video_id : String) :
    AssignOutcome × EmbStore :=
  let newEmbs :=
    st.embeddings.map
      (fun e => if e.id = embedding_id then { e with video_id := some video_id } else e)
  let matched := (st.embeddings.filter (fun e => e.id = embedding_id)).length
  (if matched = 1 then AssignOutcome.ok else AssignOutcome.serverError,
   { st with embeddings := newEmbs })

/-- The handler `assignVideoToEmbedding`: validate the parameters, require the video to
exist, reject when a different embedding already holds this `video_id`
(the `.single()` existence check), then update the target embedding. -/
def assignVideoToEmbedding (st : EmbStore) (embedding_id video_id : String) :
    AssignOutcome × EmbStore :=
  if embedding_id = "" then (AssignOutcome.badRequest, st)
  else if video_id = "" then (AssignOutcome.badRequest, st)
  else if ¬ st.videos.contains video_id then (AssignOutcome.notFound, st)
  else
    match singleRow (st.embeddings.filter (fun e => e.video_id = some video_id)) with
    | some e =>
      if e.id ≠ embedding_id then (AssignOutcome.conflict, st)
      else assignApplyUpdate st embedding_id video_id
    | none => assignApplyUpdate st embedding_id video_id

/-! ## Concrete run fixtures

A one-video channel, used to evaluate the sync run on concrete inputs: the
store already holds video `"a"` with `view_count` 1000 and no archived
stats rows, and the fetch returns fresh counts with `view_count` 1500. -/

/-- A frozen wall clock: every reading returns 100. -/
def wTl : Nat → Nat := fun _ => 100

/-- An advancing wall clock: the k-th reading returns k. -/
def wTlId : Nat → Nat := fun i => i

/-- The stored record of video `"a"` before the run. -/
def wOldA : VideoRecord :=
  { video_id := "a", view_count := 1000, like_count := 10, comment_count := 5
    favorite_count := 2, engagement_rate := none, views_per_day := 48
    days_since_published := 0, first_synced_at := 7, last_synced_at := 7
    updated_at := none, sync_count := 3 }

/-- The freshly fetched (transformed) data of video `"a"`. -/
def wNewA : VideoData :=
  { video_id := "a", view_count := 1500, like_count := 20, comment_count := 8
    favorite_count := 2, engagement_rate := none, views_per_day := 50
    days_since_published := 1 }

/-- The store before the run. -/
def wStore : Store := { videos := [wOldA], stats := [] }

/-- One search page listing video `"a"`. -/
def wPages : List (Option (List String)) := [some ["a"]]

/-- The duration-metadata API: `"a"` is a 10-second video. -/
def wApi : List String → Option (List VideoItem) := fun _ => some [⟨"a", "PT10S"⟩]

/-- The detail API: returns the fresh data of `"a"`. -/
def wDapi : List String → Option (List VideoData) := fun _ => some [wNewA]

/-- No injected store failures. -/
def wFail : Nat → FailureSpec := fun _ => noFailure

/-- A stored record with zero `views_per_day` (a video with zero views),
used for the `views_per_hour` fallback analysis. -/
def c3Ex : VideoRecord :=
  { video_id := "z", view_count := 0, like_count := 0, comment_count := 0
    favorite_count := 0, engagement_rate := none, views_per_day := 0
    days_since_published := 3, first_synced_at := 0, last_synced_at := 0
    updated_at := none, sync_count := 1 }

/-- A search response with one page and zero items (an empty channel). -/
def c6Pages : List (Option (List String)) := [some []]

/-- A metadata API for three videos: a 30-second short, a 2-minute video,
and one with an empty (falsy) duration string. -/
def c5Api : List String → Option (List VideoItem) :=
  fun _ => some [⟨"a", "PT30S"⟩, ⟨"b", "PT2M"⟩, ⟨"c", ""⟩]

/-- Fifty-one video ids: two metadata batches (50 + 1). -/
def c10Ids : List String := List.replicate 51 "x"

/-- A metadata API whose second (single-id) batch fails while the first
50-id batch succeeds. -/
def c10Api : List String → Option (List VideoItem) :=
  fun b => if b.length = 1 then none else some []

/-- An embeddings table where `"e1"` is assigned to video `"v1"` and
`"e2"` is a pending script. -/
def c8Store : EmbStore :=
  { videos := ["v1", "v2"]
    embeddings := [⟨"e1", some "v1"⟩, ⟨"e2", none⟩] }

/-! ## Helper lemmas about the store primitives -/

theorem findVideo_append_ne (l : List VideoRecord) (x : VideoRecord) (vid : String)
    (hx : x.video_id ≠ vid) : findVideo (l ++ [x]) vid = findVideo l vid := by
  induction l with
  | nil => simp [findVideo, List.find?, hx]
  | cons a as ih =>
    unfold findVideo at *
    by_cases ha : a.video_id = vid
    · simp [List.find?, ha]
    · simp only [List.cons_append, List.find?]
      simp only [ha, decide_False]
      exact ih

theorem findVideo_append_of_none (l : List VideoRecord) (x : VideoRecord) (vid : String)
    (hl : findVideo l vid = none) (hx : x.video_id = vid) :
    findVideo (l ++ [x]) vid = some x := by
  induction l with
  | nil => simp [findVideo, List.find?, hx]
  | cons a as ih =>
    unfold findVideo at *
    by_cases ha : a.video_id = vid
    · simp [List.find?, ha] at hl
    · simp only [List.find?, ha, decide_False] at hl
      simp only [List.cons_append, List.find?, ha, decide_False]
      exact ih hl

theorem findVideo_map_set (l : List VideoRecord) (vid : String) (u : VideoRecord)
    (hu : u.video_id = vid) :
    findVideo (l.map (fun r => if r.video_id = vid then u else r)) vid =
      (findVideo l vid).map (fun _ => u) := by
  induction l with
  | nil => simp [findVideo]
  | cons a as ih =>
    unfold findVideo at *
    by_cases ha : a.video_id = vid
    · simp [List.find?, ha, hu]
    · simp only [List.map_cons, ha, if_false, List.find?, decide_False]
      exact ih

theorem findVideo_map_set_ne (l : List VideoRecord) (w vid : String) (u : VideoRecord)
    (hu : u.video_id = w) (hne : w ≠ vid) :
    findVideo (l.map (fun r => if r.video_id = w then u else r)) vid =
      findVideo l vid := by
  induction l with
  | nil => simp [findVideo]
  | cons a as ih =>
    unfold findVideo at *
    by_cases ha : a.video_id = w
    · have hav : a.video_id ≠ vid := by rw [ha]; exact hne
      simp only [List.map_cons, ha, if_true, List.find?]
      have huv : u.video_id ≠ vid := by rw [hu]; exact hne
      simp only [huv, decide_False, hav, hne]
      exact ih
    · simp only [List.map_cons, ha, if_false, List.find?]
      by_cases hav : a.video_id = vid
      · simp [hav]
      · simp only [hav, decide_False]
        exact ih

theorem statsFor_append (stats : List StatsSnapshot) (x : StatsSnapshot) (vid : String) :
    statsFor (stats ++ [x]) vid =
      statsFor stats vid ++ (if x.video_id = vid then [x] else []) := by
  unfold statsFor
  rw [List.filter_append]
  by_cases hx : x.video_id = vid
  · simp [hx]
  · simp [hx]

theorem findVideo_mem_id (l : List VideoRecord) (vid : String) (r : VideoRecord)
    (h : findVideo l vid = some r) : r.video_id = vid := by
  unfold findVideo at h
  have := List.find?_some h
  simpa using this

/-! ## Characterization of one loop iteration -/

theorem processVideo_some_noFail (tl : Nat → Nat) (ts : Nat) (v : VideoData)
    (s : RunState) (old : VideoRecord)
    (h : findVideo s.store.videos v.video_id = some old) :
    processVideo tl ts (v, noFailure) s =
      { store :=
          { videos :=
              s.store.videos.map
                (fun r =>
                  if r.video_id = v.video_id then
                    updatedRecord v old (tl s.reads) (tl (s.reads + 1))
                  else r)
            stats := s.store.stats ++ [buildSnapshot s.store.stats old ts] }
        counters :=
          { s.counters with
            statsArchived := s.counters.statsArchived + 1
            videosUpdated := s.counters.videosUpdated + 1 }
        reads := s.reads + 2 } := by
  simp [processVideo, noFailure, h]

theorem processVideo_none_noFail (tl : Nat → Nat) (ts : Nat) (v : VideoData)
    (s : RunState)
    (h : findVideo s.store.videos v.video_id = none) :
    processVideo tl ts (v, noFailure) s =
      { store :=
          { videos := s.store.videos ++ [insertedRecord v (tl s.reads) (tl (s.reads + 1))]
            stats := s.store.stats }
        counters := { s.counters with videosInserted := s.counters.videosInserted + 1 }
        reads := s.reads + 2 } := by
  simp [processVideo, noFailure, h]

theorem processVideo_findVideo_frame (tl : Nat → Nat) (ts : Nat)
    (vf : VideoData × FailureSpec) (s : RunState) (vid : String)
    (hne : vf.1.video_id ≠ vid) :
    findVideo (processVideo tl ts vf s).store.videos vid =
      findVideo s.store.videos vid := by
  obtain ⟨v, f⟩ := vf
  simp only at hne
  unfold processVideo
  by_cases ht : f.throws
  · simp [ht]
  · simp only [ht, if_false]
    cases hfind : findVideo s.store.videos v.video_id with
    | none =>
      by_cases hw : f.writeFails
      · simp [hw]
      · simp only [hw, if_false]
        exact findVideo_append_ne _ _ _ (by simp [insertedRecord, hne])
    | some old =>
      have hmap :
          findVideo
            (s.store.videos.map
              (fun r =>
                if r.video_id = v.video_id then
                  updatedRecord v old (tl s.reads) (tl (s.reads + 1))
                else r)) vid =
            findVideo s.store.videos vid :=
        findVideo_map_set_ne _ _ _ _ (by simp [updatedRecord]) hne
      by_cases ha : f.archiveFails <;> by_cases hw : f.writeFails <;>
        simp [ha, hw, hmap]

theorem processVideo_statsFor_frame (tl : Nat → Nat) (ts : Nat)
    (vf : VideoData × FailureSpec) (s : RunState) (vid : String)
    (hne : vf.1.video_id ≠ vid) :
    statsFor (processVideo tl ts vf s).store.stats vid =
      statsFor s.store.stats vid := by
  obtain ⟨v, f⟩ := vf
  simp only at hne
  unfold processVideo
  by_cases ht : f.throws
  · simp [ht]
  · simp only [ht, if_false]
    cases hfind : findVideo s.store.videos v.video_id with
    | none =>
      by_cases hw : f.writeFails <;> simp [hw]
    | some old =>
      have hold : old.video_id = v.video_id := findVideo_mem_id _ _ _ hfind
      have hsnap : (buildSnapshot s.store.stats old ts).video_id ≠ vid := by
        simp [buildSnapshot, hold, hne]
      by_cases ha : f.archiveFails <;> by_cases hw : f.writeFails <;>
        simp [ha, hw, statsFor_append, hsnap]

/-! ## The loop as a whole -/

theorem runLoop_append (tl : Nat → Nat) (ts : Nat)
    (l₁ l₂ : List (VideoData × FailureSpec)) (s : RunState) :
    runLoop tl ts (l₁ ++ l₂) s = runLoop tl ts l₂ (runLoop tl ts l₁ s) := by
  induction l₁ generalizing s with
  | nil => simp [runLoop]
  | cons vf rest ih => simp [runLoop, ih]

theorem runLoop_findVideo_frame (tl : Nat → Nat) (ts : Nat)
    (pairs : List (VideoData × FailureSpec)) (s : RunState) (vid : String)
    (h : ∀ p ∈ pairs, p.1.video_id ≠ vid) :
    findVideo (runLoop tl ts pairs s).store.videos vid =
      findVideo s.store.videos vid := by
  induction pairs generalizing s with
  | nil => simp [runLoop]
  | cons vf rest ih =>
    simp only [runLoop]
    rw [ih _ (fun p hp => h p (List.mem_cons_of_mem _ hp))]
    exact processVideo_findVideo_frame tl ts vf s vid (h vf (List.mem_cons_self vf rest))

theorem runLoop_statsFor_frame (tl : Nat → Nat) (ts : Nat)
    (pairs : List (VideoData × FailureSpec)) (s : RunState) (vid : String)
    (h : ∀ p ∈ pairs, p.1.video_id ≠ vid) :
    statsFor (runLoop tl ts pairs s).store.stats vid =
      statsFor s.store.stats vid := by
  induction pairs generalizing s with
  | nil => simp [runLoop]
  | cons vf rest ih =>
    simp only [runLoop]
    rw [ih _ (fun p hp => h p (List.mem_cons_of_mem _ hp))]
    exact processVideo_statsFor_frame tl ts vf s vid (h vf (List.mem_cons_self vf rest))

/-- Every iteration increments exactly one of the three summary counters
(`videosInserted`, `videosUpdated`, `errors`), whatever the injected
outcomes. -/
theorem processVideo_counter_sum (tl : Nat → Nat) (ts : Nat)
    (vf : VideoData × FailureSpec) (s : RunState) :
    (processVideo tl ts vf s).counters.videosInserted +
        (processVideo tl ts vf s).counters.videosUpdated +
        (processVideo tl ts vf s).counters.errors =
      s.counters.videosInserted + s.counters.videosUpdated + s.counters.errors + 1 := by
  obtain ⟨v, f⟩ := vf
  unfold processVideo
  by_cases ht : f.throws
  · simp [ht]; omega
  · simp only [ht, if_false]
    cases hfind : findVideo s.store.videos v.video_id with
    | none =>
      by_cases hw : f.writeFails <;> (simp [hw]; omega)
    | some old =>
      by_cases ha : f.archiveFails <;> by_cases hw : f.writeFails <;>
        (simp [ha, hw]; omega)

theorem runLoop_counter_sum (tl : Nat → Nat) (ts : Nat)
    (pairs : List (VideoData × FailureSpec)) (s : RunState) :
    (runLoop tl ts pairs s).counters.videosInserted +
        (runLoop tl ts pairs s).counters.videosUpdated +
        (runLoop tl ts pairs s).counters.errors =
      s.counters.videosInserted + s.counters.videosUpdated + s.counters.errors +
        pairs.length := by
  induction pairs generalizing s with
  | nil => simp [runLoop]
  | cons vf rest ih =>
    simp only [runLoop, List.length_cons]
    rw [ih]
    rw [processVideo_counter_sum]
    omega

/-! ## Relating the run inputs to the loop input -/

theorem range_map_const {α : Type} (n : Nat) (f : Nat → α) (c : α)
    (h : ∀ i, f i = c) : (List.range n).map f = List.replicate n c := by
  induction n with
  | zero => simp
  | succ m ih =>
    rw [List.range_succ, List.map_append, ih]
    rw [List.replicate_succ' m c]
    simp [h]

theorem zip_replicate_map {α β : Type} (l : List α) (c : β) :
    l.zip (List.replicate l.length c) = l.map (fun v => (v, c)) := by
  induction l with
  | nil => simp
  | cons a as ih =>
    simp only [List.length_cons, List.replicate_succ, List.zip_cons_cons, List.map_cons]
    rw [ih]

/-- Decomposition of an all-successful loop around one target video: there
is an intermediate state `mid` that agrees with the initial state on the
record and archived rows of the target, such that the final state agrees with
`processVideo` applied at `mid`. -/
theorem runLoop_noFail_target (tl : Nat → Nat) (ts : Nat)
    (videos : List VideoData) (v : VideoData) (s : RunState)
    (hv : v ∈ videos) (hnodup : (videos.map VideoData.video_id).Nodup) :
    ∃ mid : RunState,
      findVideo mid.store.videos v.video_id = findVideo s.store.videos v.video_id ∧
      statsFor mid.store.stats v.video_id = statsFor s.store.stats v.video_id ∧
      findVideo
          (runLoop tl ts (videos.map (fun w => (w, noFailure))) s).store.videos
          v.video_id =
        findVideo (processVideo tl ts (v, noFailure) mid).store.videos v.video_id ∧
      statsFor
          (runLoop tl ts (videos.map (fun w => (w, noFailure))) s).store.stats
          v.video_id =
        statsFor (processVideo tl ts (v, noFailure) mid).store.stats v.video_id := by
  obtain ⟨l₁, l₂, rfl⟩ := List.append_of_mem hv
  have hmap : (l₁ ++ v :: l₂).map VideoData.video_id =
      l₁.map VideoData.video_id ++ v.video_id :: l₂.map VideoData.video_id := by
    simp
  rw [hmap] at hnodup
  rw [List.nodup_append] at hnodup
  obtain ⟨-, hn2, hdisj⟩ := hnodup
  rw [List.nodup_cons] at hn2
  have hnotl₂ : ∀ w ∈ l₂, w.video_id ≠ v.video_id := by
    intro w hw heq
    exact hn2.1 (heq ▸ List.mem_map_of_mem VideoData.video_id hw)
  have hnotl₁ : ∀ w ∈ l₁, w.video_id ≠ v.video_id := by
    intro w hw heq
    exact hdisj (heq ▸ List.mem_map_of_mem VideoData.video_id hw)
      (List.mem_cons_self _ _)
  refine ⟨runLoop tl ts (l₁.map (fun w => (w, noFailure))) s, ?_, ?_, ?_, ?_⟩
  · exact runLoop_findVideo_frame tl ts _ s v.video_id
      (by intro p hp; obtain ⟨w, hw, rfl⟩ := List.mem_map.mp hp; exact hnotl₁ w hw)
  · exact runLoop_statsFor_frame tl ts _ s v.video_id
      (by intro p hp; obtain ⟨w, hw, rfl⟩ := List.mem_map.mp hp; exact hnotl₁ w hw)
  · rw [List.map_append, runLoop_append, List.map_cons]
    show findVideo
        (runLoop tl ts ((v, noFailure) :: l₂.map (fun w => (w, noFailure))) _).store.videos
        v.video_id = _
    rw [runLoop]
    exact runLoop_findVideo_frame tl ts _ _ v.video_id
      (by intro p hp; obtain ⟨w, hw, rfl⟩ := List.mem_map.mp hp; exact hnotl₂ w hw)
  · rw [List.map_append, runLoop_append, List.map_cons]
    show statsFor
        (runLoop tl ts ((v, noFailure) :: l₂.map (fun w => (w, noFailure))) _).store.stats
        v.video_id = _
    rw [runLoop]
    exact runLoop_statsFor_frame tl ts _ _ v.video_id
      (by intro p hp; obtain ⟨w, hw, rfl⟩ := List.mem_map.mp hp; exact hnotl₂ w hw)

/-- Unfolding of a run that reaches the per-video loop with all iterations
successful: the resulting store is the store of the loop over the fetched
details, with the run timestamp `tl 0` and clock readings from index 1. -/
theorem retrieve_ok_noFail (tl : Nat → Nat) (pages : List (Option (List String)))
    (api : List String → Option (List VideoItem))
    (dapi : List String → Option (List VideoData))
    (fail : Nat → FailureSpec) (store : Store) (videoIds : List String)
    (hids : getAllShortsFromChannel pages api = Except.ok videoIds)
    (hne : videoIds ≠ [])
    (hnf : ∀ i, fail i = noFailure) :
    retrieveChannelShorts tl pages api dapi fail store =
      (let videos := getVideoDetails dapi videoIds
       let final :=
         runLoop tl (tl 0) (videos.map (fun w => (w, noFailure)))
           { store := store, counters := ⟨0, 0, 0, 0⟩, reads := 1 }
       Except.ok
         ({ videosProcessed := videos.length
            videosInserted := some final.counters.videosInserted
            videosUpdated := some final.counters.videosUpdated
            statsArchived := some final.counters.statsArchived
            errors := some final.counters.errors }, final.store)) := by
  unfold retrieveChannelShorts
  rw [hids]
  simp only [hne, if_false]
  rw [range_map_const _ fail noFailure hnf, zip_replicate_map]

/-! ## C1 -/

/-- C1: in a sync run with no store failures, every processed video whose
id already has a record in the store gets exactly one new StatsSnapshot row
appended, whose `recorded_at` is the run timestamp `tl 0` (one shared value
for all videos of the run) and whose view/like/comment/favorite counts are
the pre-update counts of the existing record; a video without an existing
record gets no StatsSnapshot row. -/
theorem c1_snapshot_archival (tl : Nat → Nat)
    (pages : List (Option (List String)))
    (api : List String → Option (List VideoItem))
    (dapi : List String → Option (List VideoData))
    (fail : Nat → FailureSpec) (store : Store) (videoIds : List String)
    (su : Summary) (st' : Store)
    (hids : getAllShortsFromChannel pages api = Except.ok videoIds)
    (hne : videoIds ≠ [])
    (hnf : ∀ i, fail i = noFailure)
    (hnodupV : ((getVideoDetails dapi videoIds).map VideoData.video_id).Nodup)
    (hrun : retrieveChannelShorts tl pages api dapi fail store = Except.ok (su, st'))
    (v : VideoData) (hv : v ∈ getVideoDetails dapi videoIds) :
    (∀ old, findVideo store.videos v.video_id = some old →
      ∃ snap,
        statsFor st'.stats v.video_id = statsFor store.stats v.video_id ++ [snap] ∧
        snap.recorded_at = tl 0 ∧
        snap.view_count = old.view_count ∧
        snap.like_count = old.like_count ∧
        snap.comment_count = old.comment_count ∧
        snap.favorite_count = old.favorite_count) ∧
    (findVideo store.videos v.video_id = none →
      statsFor st'.stats v.video_id = statsFor store.stats v.video_id) := by
  rw [retrieve_ok_noFail tl pages api dapi fail store videoIds hids hne hnf] at hrun
  simp only [Except.ok.injEq, Prod.mk.injEq] at hrun
  obtain ⟨-, hst⟩ := hrun
  obtain ⟨mid, hmf, hms, hff, hfs⟩ :=
    runLoop_noFail_target tl (tl 0) (getVideoDetails dapi videoIds) v
      { store := store, counters := ⟨0, 0, 0, 0⟩, reads := 1 } hv hnodupV
  constructor
  · intro old hold
    have hmid : findVideo mid.store.videos v.video_id = some old := by
      rw [hmf]; exact hold
    refine ⟨buildSnapshot mid.store.stats old (tl 0), ?_,
      by simp [buildSnapshot], by simp [buildSnapshot], by simp [buildSnapshot],
      by simp [buildSnapshot], by simp [buildSnapshot]⟩
    rw [← hst, hfs, processVideo_some_noFail tl (tl 0) v mid old hmid]
    show statsFor (mid.store.stats ++ [buildSnapshot mid.store.stats old (tl 0)])
        v.video_id = _
    rw [statsFor_append]
    have hsnapid : (buildSnapshot mid.store.stats old (tl 0)).video_id = v.video_id := by
      have : old.video_id = v.video_id := findVideo_mem_id _ _ _ hmid
      simp [buildSnapshot, this]
    rw [if_pos hsnapid, hms]
  · intro hold
    have hmid : findVideo mid.store.videos v.video_id = none := by
      rw [hmf]; exact hold
    rw [← hst, hfs, processVideo_none_noFail tl (tl 0) v mid hmid]
    show statsFor mid.store.stats v.video_id = _
    rw [hms]

/-- Witness for C1: the one-video fixture run, with every hypothesis
discharged on concrete values. -/
theorem c1_snapshot_archival_witness :
    getAllShortsFromChannel wPages wApi = Except.ok ["a"] ∧
    (["a"] : List String) ≠ [] ∧
    retrieveChannelShorts wTl wPages wApi wDapi wFail wStore =
      Except.ok (⟨1, some 0, some 1, some 1, some 0⟩,
        ⟨[⟨"a", 1500, 20, 8, 2, none, 50, 1, 7, 100, some 100, 4⟩],
         [⟨"a", 100, 1000, 10, 5, 2, 0, 0, 0, none,
           some (wOldA.views_per_day / 24), none⟩]⟩) ∧
    ((∀ old, findVideo wStore.videos wNewA.video_id = some old →
      ∃ snap,
        statsFor
            (⟨[⟨"a", 1500, 20, 8, 2, none, 50, 1, 7, 100, some 100, 4⟩],
              [⟨"a", 100, 1000, 10, 5, 2, 0, 0, 0, none,
                some (wOldA.views_per_day / 24), none⟩]⟩ : Store).stats
            wNewA.video_id =
          statsFor wStore.stats wNewA.video_id ++ [snap] ∧
        snap.recorded_at = wTl 0 ∧
        snap.view_count = old.view_count ∧
        snap.like_count = old.like_count ∧
        snap.comment_count = old.comment_count ∧
        snap.favorite_count = old.favorite_count) ∧
    (findVideo wStore.videos wNewA.video_id = none →
      statsFor
          (⟨[⟨"a", 1500, 20, 8, 2, none, 50, 1, 7, 100, some 100, 4⟩],
            [⟨"a", 100, 1000, 10, 5, 2, 0, 0, 0, none,
              some (wOldA.views_per_day / 24), none⟩]⟩ : Store).stats
          wNewA.video_id =
        statsFor wStore.stats wNewA.video_id)) :=
  ⟨rfl, by decide, rfl,
    c1_snapshot_archival wTl wPages wApi wDapi wFail wStore ["a"]
      ⟨1, some 0, some 1, some 1, some 0⟩
      ⟨[⟨"a", 1500, 20, 8, 2, none, 50, 1, 7, 100, some 100, 4⟩],
       [⟨"a", 100, 1000, 10, 5, 2, 0, 0, 0, none,
         some (wOldA.views_per_day / 24), none⟩]⟩
      rfl (by decide) (fun _ => rfl) (by decide) rfl wNewA (by decide)⟩

/-! ## C2 -/

/-- C2: each growth field of an archived StatsSnapshot equals the count
being archived (the count of the pre-update record) minus the same count in the
immediately preceding snapshot of that video, and 0 when no preceding
snapshot exists; in the concrete scenario (stored `view_count` 1000, fetch
1500, no prior snapshot) the run archives a snapshot with `view_count`
1000 and `view_growth` 0 while the record is overwritten to 1500. -/
theorem c2_growth_deltas :
    (∀ (stats : List StatsSnapshot) (ex : VideoRecord) (ts : Nat),
      (buildSnapshot stats ex ts).view_growth =
        (match latestSnapshot stats ex.video_id with
         | none => 0
         | some p => (ex.view_count : Int) - (p.view_count : Int)) ∧
      (buildSnapshot stats ex ts).like_growth =
        (match latestSnapshot stats ex.video_id with
         | none => 0
         | some p => (ex.like_count : Int) - (p.like_count : Int)) ∧
      (buildSnapshot stats ex ts).comment_growth =
        (match latestSnapshot stats ex.video_id with
         | none => 0
         | some p => (ex.comment_count : Int) - (p.comment_count : Int))) ∧
    wOldA.view_count = 1000 ∧ wNewA.view_count = 1500 ∧ wStore.stats = [] ∧
    (retrieveChannelShorts wTl wPages wApi wDapi wFail wStore).map
        (fun p => (statsFor p.2.stats "a").map (fun s => (s.view_count, s.view_growth))) =
      Except.ok [(1000, 0)] ∧
    (retrieveChannelShorts wTl wPages wApi wDapi wFail wStore).map
        (fun p => (findVideo p.2.videos "a").map VideoRecord.view_count) =
      Except.ok (some 1500) :=
  ⟨fun stats ex ts => ⟨by simp [buildSnapshot], by simp [buildSnapshot],
    by simp [buildSnapshot]⟩, rfl, rfl, rfl, rfl, rfl⟩

/-! ## C3 -/

/-- C3 counterexample: for a record with `views_per_day = 0` and no prior
snapshot, the code leaves `views_per_hour` null instead of falling back to
`views_per_day / 24` (the JS truthiness guard `existingVideo.views_per_day`
skips the fallback for the number 0), so the claimed unconditional fallback
is false at this input. -/
theorem c3_counterexample :
    latestSnapshot [] c3Ex.video_id = none ∧
    (buildSnapshot [] c3Ex 1000).views_per_hour = none ∧
    (buildSnapshot [] c3Ex 1000).views_per_hour ≠ some (c3Ex.views_per_day / 24) :=
  ⟨rfl, rfl, fun h => Option.noConfusion h⟩

/-- C3 (amended): when a prior snapshot exists, `views_per_hour` is
`view_growth / elapsed_hours` if the elapsed time is positive and null
otherwise (no division, no zero); when no prior snapshot exists, the
fallback `views_per_day / 24` applies only if the stored `views_per_day` is
non-zero (JS truthiness), and `views_per_hour` stays null when
`views_per_day` is 0. -/
theorem c3_views_per_hour_guards (stats : List StatsSnapshot) (ex : VideoRecord)
    (ts : Nat) :
    (∀ p, latestSnapshot stats ex.video_id = some p →
      (((ts : ℚ) - (p.recorded_at : ℚ)) / (1000 * 60 * 60) ≤ 0 →
        (buildSnapshot stats ex ts).views_per_hour = none) ∧
      (0 < ((ts : ℚ) - (p.recorded_at : ℚ)) / (1000 * 60 * 60) →
        (buildSnapshot stats ex ts).views_per_hour =
          some (((buildSnapshot stats ex ts).view_growth : ℚ) /
            (((ts : ℚ) - (p.recorded_at : ℚ)) / (1000 * 60 * 60))))) ∧
    (latestSnapshot stats ex.video_id = none →
      (ex.views_per_day ≠ 0 →
        (buildSnapshot stats ex ts).views_per_hour = some (ex.views_per_day / 24)) ∧
      (ex.views_per_day = 0 →
        (buildSnapshot stats ex ts).views_per_hour = none)) := by
  constructor
  · intro p hp
    constructor
    · intro hle
      simp only [buildSnapshot, hp]
      rw [if_neg (by exact not_lt.mpr hle)]
    · intro hlt
      simp only [buildSnapshot, hp]
      rw [if_pos hlt]
  · intro hp
    constructor
    · intro hvpd
      simp only [buildSnapshot, hp]
      rw [if_neg hvpd]
    · intro hvpd
      simp only [buildSnapshot, hp]
      rw [if_pos hvpd]

/-- Witness for C3 (amended): the no-prior-snapshot fallback fires for the
fixture record with `views_per_day = 48`. -/
theorem c3_views_per_hour_witness :
    latestSnapshot [] wOldA.video_id = none ∧
    wOldA.views_per_day ≠ 0 ∧
    (buildSnapshot [] wOldA 100).views_per_hour = some (wOldA.views_per_day / 24) :=
  ⟨rfl, by decide, ((c3_views_per_hour_guards [] wOldA 100).2 rfl).1 (by decide)⟩

/-! ## C4 -/

/-- C4 counterexample: under a wall clock that advances by one millisecond
per reading, the `last_synced_at` of the updated record is reading 2, not the
run timestamp (reading 0), because the update payload takes fresh
`new Date()` readings instead of reusing `snapshotTimestamp`; likewise a
fresh insert takes two distinct readings for `first_synced_at` and
`last_synced_at`. -/
theorem c4_counterexample :
    (retrieveChannelShorts wTlId wPages wApi wDapi wFail wStore).map
        (fun p => (findVideo p.2.videos "a").map VideoRecord.last_synced_at) =
      Except.ok (some 2) ∧
    wTlId 0 = 0 ∧ (2 : Nat) ≠ 0 ∧
    (retrieveChannelShorts wTlId wPages wApi wDapi wFail ⟨[], []⟩).map
        (fun p =>
          (findVideo p.2.videos "a").map
            (fun r => (r.first_synced_at, r.last_synced_at))) =
      Except.ok (some (1, 2)) ∧ (1 : Nat) ≠ (2 : Nat) :=
  ⟨rfl, rfl, by decide, rfl, by decide⟩

/-- C4 (amended): in a sync run with no store failures and a wall clock
that does not advance during the run, every processed video with an
existing record (whose stored `sync_count` is at least 1, as all records
written by the system are) ends with `sync_count` exactly one larger,
`first_synced_at` unchanged and `last_synced_at` equal to the run
timestamp; every processed video without an existing record gets a new
record with `sync_count = 1` and `first_synced_at = last_synced_at`.  (With
an advancing clock the written timestamps are fresh per-video readings
taken after the run timestamp, as the counterexample shows.) -/
theorem c4_sync_metadata (tl : Nat → Nat)
    (pages : List (Option (List String)))
    (api : List String → Option (List VideoItem))
    (dapi : List String → Option (List VideoData))
    (fail : Nat → FailureSpec) (store : Store) (videoIds : List String)
    (su : Summary) (st' : Store)
    (hids : getAllShortsFromChannel pages api = Except.ok videoIds)
    (hne : videoIds ≠ [])
    (hnf : ∀ i, fail i = noFailure)
    (hconst : ∀ i, tl i = tl 0)
    (hnodupV : ((getVideoDetails dapi videoIds).map VideoData.video_id).Nodup)
    (hrun : retrieveChannelShorts tl pages api dapi fail store = Except.ok (su, st'))
    (v : VideoData) (hv : v ∈ getVideoDetails dapi videoIds) :
    (∀ old, findVideo store.videos v.video_id = some old → 1 ≤ old.sync_count →
      ∃ r, findVideo st'.videos v.video_id = some r ∧
        r.sync_count = old.sync_count + 1 ∧
        r.first_synced_at = old.first_synced_at ∧
        r.last_synced_at = tl 0) ∧
    (findVideo store.videos v.video_id = none →
      ∃ r, findVideo st'.videos v.video_id = some r ∧
        r.sync_count = 1 ∧
        r.first_synced_at = r.last_synced_at) := by
  rw [retrieve_ok_noFail tl pages api dapi fail store videoIds hids hne hnf] at hrun
  simp only [Except.ok.injEq, Prod.mk.injEq] at hrun
  obtain ⟨-, hst⟩ := hrun
  obtain ⟨mid, hmf, -, hff, -⟩ :=
    runLoop_noFail_target tl (tl 0) (getVideoDetails dapi videoIds) v
      { store := store, counters := ⟨0, 0, 0, 0⟩, reads := 1 } hv hnodupV
  constructor
  · intro old hold hsync
    have hmid : findVideo mid.store.videos v.video_id = some old := by
      rw [hmf]; exact hold
    refine ⟨updatedRecord v old (tl mid.reads) (tl (mid.reads + 1)), ?_, ?_, rfl, ?_⟩
    · rw [← hst, hff, processVideo_some_noFail tl (tl 0) v mid old hmid]
      show findVideo
          (mid.store.videos.map
            (fun r =>
              if r.video_id = v.video_id then
                updatedRecord v old (tl mid.reads) (tl (mid.reads + 1))
              else r)) v.video_id = _
      rw [findVideo_map_set _ _ _ (by simp [updatedRecord]), hmid]
      rfl
    · show (if old.sync_count = 0 then 1 else old.sync_count) + 1 = old.sync_count + 1
      rw [if_neg (by omega)]
    · show tl (mid.reads + 1) = tl 0
      exact hconst (mid.reads + 1)
  · intro hold
    have hmid : findVideo mid.store.videos v.video_id = none := by
      rw [hmf]; exact hold
    refine ⟨insertedRecord v (tl mid.reads) (tl (mid.reads + 1)), ?_, rfl, ?_⟩
    · rw [← hst, hff, processVideo_none_noFail tl (tl 0) v mid hmid]
      show findVideo
          (mid.store.videos ++ [insertedRecord v (tl mid.reads) (tl (mid.reads + 1))])
          v.video_id = _
      exact findVideo_append_of_none _ _ _ hmid (by simp [insertedRecord])
    · show tl mid.reads = tl (mid.reads + 1)
      rw [hconst mid.reads, hconst (mid.reads + 1)]

/-- Witness for C4 (amended): the frozen-clock fixture run; the record of
`"a"` goes from `sync_count` 3 to 4, keeps `first_synced_at = 7`, and gets
`last_synced_at` equal to the run timestamp 100. -/
theorem c4_sync_metadata_witness :
    findVideo wStore.videos wNewA.video_id = some wOldA ∧
    1 ≤ wOldA.sync_count ∧
    (∃ r, findVideo
        (⟨[⟨"a", 1500, 20, 8, 2, none, 50, 1, 7, 100, some 100, 4⟩],
          [⟨"a", 100, 1000, 10, 5, 2, 0, 0, 0, none,
            some (wOldA.views_per_day / 24), none⟩]⟩ : Store).videos
        wNewA.video_id = some r ∧
      r.sync_count = wOldA.sync_count + 1 ∧
      r.first_synced_at = wOldA.first_synced_at ∧
      r.last_synced_at = wTl 0) :=
  ⟨rfl, by decide,
    (c4_sync_metadata wTl wPages wApi wDapi wFail wStore ["a"]
        ⟨1, some 0, some 1, some 1, some 0⟩
        ⟨[⟨"a", 1500, 20, 8, 2, none, 50, 1, 7, 100, some 100, 4⟩],
         [⟨"a", 100, 1000, 10, 5, 2, 0, 0, 0, none,
           some (wOldA.views_per_day / 24), none⟩]⟩
        rfl (by decide) (fun _ => rfl) (fun _ => rfl) (by decide) rfl
        wNewA (by decide)).1 wOldA rfl (by decide)⟩

/-! ## C6 -/

/-- C6 counterexample: the empty-channel early response carries no
`videosInserted`/`videosUpdated` keys at all (they are absent from the
response object, not present with value 0), so the claimed summary shape
`{videosProcessed: 0, videosInserted: 0, videosUpdated: 0}` is not what the
run returns. -/
theorem c6_counterexample :
    (retrieveChannelShorts wTl c6Pages wApi wDapi wFail wStore).map
        (fun p => (p.1.videosInserted, p.1.videosUpdated)) =
      Except.ok ((none : Option Nat), (none : Option Nat)) ∧
    ((none : Option Nat), (none : Option Nat)) ≠ (some 0, some 0) :=
  ⟨rfl, by decide⟩

/-- C6 (amended): when the channel yields zero short video ids, the run
immediately returns a success response with `videosProcessed = 0`, leaves
the store untouched (no writes), and raises no error; the
`videosInserted` and `videosUpdated` keys are absent from that early
response rather than present with value 0. -/
theorem c6_empty_channel (tl : Nat → Nat)
    (pages : List (Option (List String)))
    (api : List String → Option (List VideoItem))
    (dapi : List String → Option (List VideoData))
    (fail : Nat → FailureSpec) (store : Store)
    (h : getAllShortsFromChannel pages api = Except.ok []) :
    retrieveChannelShorts tl pages api dapi fail store =
      Except.ok
        ({ videosProcessed := 0, videosInserted := none, videosUpdated := none,
           statsArchived := none, errors := none }, store) := by
  unfold retrieveChannelShorts
  rw [h]
  simp

/-- Witness for C6 (amended): a channel whose single search page lists no
videos. -/
theorem c6_empty_channel_witness :
    getAllShortsFromChannel c6Pages wApi = Except.ok [] ∧
    retrieveChannelShorts wTl c6Pages wApi wDapi wFail wStore =
      Except.ok
        ({ videosProcessed := 0, videosInserted := none, videosUpdated := none,
           statsArchived := none, errors := none }, wStore) :=
  ⟨rfl, c6_empty_channel wTl c6Pages wApi wDapi wFail wStore rfl⟩

/-! ## C7 -/

/-- C7: for a video with an existing record, a failing StatsSnapshot
archive write changes nothing about the subsequent VideoRecord update —
the resulting `youtube_videos` table, the `videosUpdated`/`videosInserted`
counters and the `errors` counter are identical to those of the same
iteration with a successful archive write; the failure leaves the stats
table and the `statsArchived` counter untouched, contributes nothing to
`errors` (which moves only with the update outcome `wf`), and when the
update write succeeds the record is indeed updated. -/
theorem c7_archival_failure_nonblocking (tl : Nat → Nat) (ts : Nat) (v : VideoData)
    (s : RunState) (old : VideoRecord) (wf : Bool)
    (h : findVideo s.store.videos v.video_id = some old) :
    (processVideo tl ts (v, ⟨false, true, wf⟩) s).store.videos =
      (processVideo tl ts (v, ⟨false, false, wf⟩) s).store.videos ∧
    (processVideo tl ts (v, ⟨false, true, wf⟩) s).counters.videosUpdated =
      (processVideo tl ts (v, ⟨false, false, wf⟩) s).counters.videosUpdated ∧
    (processVideo tl ts (v, ⟨false, true, wf⟩) s).counters.videosInserted =
      (processVideo tl ts (v, ⟨false, false, wf⟩) s).counters.videosInserted ∧
    (processVideo tl ts (v, ⟨false, true, wf⟩) s).counters.errors =
      (processVideo tl ts (v, ⟨false, false, wf⟩) s).counters.errors ∧
    (processVideo tl ts (v, ⟨false, true, wf⟩) s).store.stats = s.store.stats ∧
    (processVideo tl ts (v, ⟨false, true, wf⟩) s).counters.statsArchived =
      s.counters.statsArchived ∧
    (processVideo tl ts (v, ⟨false, true, wf⟩) s).counters.errors =
      s.counters.errors + (if wf then 1 else 0) ∧
    (wf = false →
      findVideo (processVideo tl ts (v, ⟨false, true, wf⟩) s).store.videos v.video_id =
        some (updatedRecord v old (tl s.reads) (tl (s.reads + 1)))) := by
  cases wf with
  | false =>
    have hfind : findVideo
        (s.store.videos.map
          (fun r =>
            if r.video_id = v.video_id then
              updatedRecord v old (tl s.reads) (tl (s.reads + 1))
            else r)) v.video_id =
        some (updatedRecord v old (tl s.reads) (tl (s.reads + 1))) := by
      rw [findVideo_map_set _ _ _ (by simp [updatedRecord]), h]
      rfl
    refine ⟨?_, ?_, ?_, ?_, ?_, ?_, ?_, fun _ => ?_⟩ <;>
      simp [processVideo, h, hfind]
  | true =>
    refine ⟨?_, ?_, ?_, ?_, ?_, ?_, ?_, fun hc => Bool.noConfusion hc⟩ <;>
      simp [processVideo, h]

/-- Witness for C7: the fixture video with an existing record, injected
archive failure, and a successful update write. -/
theorem c7_archival_failure_witness :
    findVideo wStore.videos wNewA.video_id = some wOldA ∧
    (processVideo wTl 100 (wNewA, ⟨false, true, false⟩)
        ⟨wStore, ⟨0, 0, 0, 0⟩, 1⟩).store.videos =
      (processVideo wTl 100 (wNewA, ⟨false, false, false⟩)
        ⟨wStore, ⟨0, 0, 0, 0⟩, 1⟩).store.videos ∧
    (processVideo wTl 100 (wNewA, ⟨false, true, false⟩)
        ⟨wStore, ⟨0, 0, 0, 0⟩, 1⟩).store.stats = wStore.stats ∧
    (processVideo wTl 100 (wNewA, ⟨false, true, false⟩)
        ⟨wStore, ⟨0, 0, 0, 0⟩, 1⟩).counters.statsArchived = 0 ∧
    (processVideo wTl 100 (wNewA, ⟨false, true, false⟩)
        ⟨wStore, ⟨0, 0, 0, 0⟩, 1⟩).counters.errors = 0 ∧
    findVideo
        (processVideo wTl 100 (wNewA, ⟨false, true, false⟩)
          ⟨wStore, ⟨0, 0, 0, 0⟩, 1⟩).store.videos wNewA.video_id =
      some (updatedRecord wNewA wOldA (wTl 1) (wTl 2)) := by
  have h := c7_archival_failure_nonblocking wTl 100 wNewA
    ⟨wStore, ⟨0, 0, 0, 0⟩, 1⟩ wOldA false rfl
  exact ⟨rfl, h.1, h.2.2.2.2.1, h.2.2.2.2.2.1, by rw [h.2.2.2.2.2.2.1]; rfl,
    h.2.2.2.2.2.2.2 rfl⟩

/-! ## C9 -/

/-- C9: whenever a run reaches the per-video loop, the returned summary
satisfies `videosInserted + videosUpdated + errors = videosProcessed`, and
`videosProcessed` is the number of detail records actually fetched (the
concatenation of the successful detail batches, possibly fewer than the
number of short ids), whatever store outcomes the iterations encounter. -/
theorem c9_counter_partition (tl : Nat → Nat)
    (pages : List (Option (List String)))
    (api : List String → Option (List VideoItem))
    (dapi : List String → Option (List VideoData))
    (fail : Nat → FailureSpec) (store : Store) (videoIds : List String)
    (su : Summary) (st' : Store)
    (hids : getAllShortsFromChannel pages api = Except.ok videoIds)
    (hne : videoIds ≠ [])
    (hrun : retrieveChannelShorts tl pages api dapi fail store = Except.ok (su, st')) :
    su.videosProcessed = (getVideoDetails dapi videoIds).length ∧
    ∃ i u e a, su.videosInserted = some i ∧ su.videosUpdated = some u ∧
      su.errors = some e ∧ su.statsArchived = some a ∧
      i + u + e = su.videosProcessed := by
  unfold retrieveChannelShorts at hrun
  rw [hids] at hrun
  simp only [hne, if_false, Except.ok.injEq, Prod.mk.injEq] at hrun
  obtain ⟨hsu, -⟩ := hrun
  subst hsu
  refine ⟨rfl, _, _, _, _, rfl, rfl, rfl, rfl, ?_⟩
  have hsum := runLoop_counter_sum tl (tl 0)
    ((getVideoDetails dapi videoIds).zip
      ((List.range (getVideoDetails dapi videoIds).length).map fail))
    { store := store, counters := ⟨0, 0, 0, 0⟩, reads := 1 }
  have hlen : ((getVideoDetails dapi videoIds).zip
      ((List.range (getVideoDetails dapi videoIds).length).map fail)).length =
      (getVideoDetails dapi videoIds).length := by
    rw [List.length_zip, List.length_map, List.length_range, min_self]
  simp only [hlen] at hsum
  simpa using hsum

/-- Witness for C9: a channel with one short id whose single detail batch
fails, so zero detail records are fetched while one id was listed; the
summary still partitions: 0 + 0 + 0 = 0 processed. -/
theorem c9_counter_partition_witness :
    getAllShortsFromChannel wPages wApi = Except.ok ["a"] ∧
    (["a"] : List String) ≠ [] ∧
    retrieveChannelShorts wTl wPages wApi (fun _ => none) wFail wStore =
      Except.ok (⟨0, some 0, some 0, some 0, some 0⟩, wStore) ∧
    (⟨0, some 0, some 0, some 0, some 0⟩ : Summary).videosProcessed =
      (getVideoDetails (fun _ => none) ["a"]).length ∧
    (∃ i u e a,
      (⟨0, some 0, some 0, some 0, some 0⟩ : Summary).videosInserted = some i ∧
      (⟨0, some 0, some 0, some 0, some 0⟩ : Summary).videosUpdated = some u ∧
      (⟨0, some 0, some 0, some 0, some 0⟩ : Summary).errors = some e ∧
      (⟨0, some 0, some 0, some 0, some 0⟩ : Summary).statsArchived = some a ∧
      i + u + e = (⟨0, some 0, some 0, some 0, some 0⟩ : Summary).videosProcessed) ∧
    (["a"] : List String).length = 1 ∧
    (getVideoDetails (fun _ => none) ["a"]).length = 0 :=
  ⟨rfl, by decide, rfl,
    (c9_counter_partition wTl wPages wApi (fun _ => none) wFail wStore ["a"]
      ⟨0, some 0, some 0, some 0, some 0⟩ wStore rfl (by decide) rfl).1,
    (c9_counter_partition wTl wPages wApi (fun _ => none) wFail wStore ["a"]
      ⟨0, some 0, some 0, some 0, some 0⟩ wStore rfl (by decide) rfl).2,
    by decide, by decide⟩

/-! ## C5 -/

/-- When every metadata batch succeeds, the batch loop accumulates the
eligible ids of each batch response in order. -/
theorem filterShortsGo_success (api : List String → Option (List VideoItem))
    (bs : List (List String)) (acc : List String)
    (h : ∀ b ∈ bs, api b ≠ none) :
    filterShortsGo api bs acc =
      some (acc ++ (bs.map (fun b => shortIdsOfItems ((api b).getD []))).flatten) := by
  induction bs generalizing acc with
  | nil => simp [filterShortsGo]
  | cons b bs ih =>
    cases hb : api b with
    | none => exact absurd hb (h b (List.mem_cons_self b bs))
    | some items =>
      simp only [filterShortsGo, hb]
      rw [ih _ (fun b' hb' => h b' (List.mem_cons_of_mem _ hb'))]
      simp [hb]

/-- C5: the duration parser maps `"PT4M13S"` to 253 seconds, `"PT1H"` to
3600, and the empty or an unparseable string to 0; an id survives the
shorts filter exactly when the parsed duration of its response item (empty
treated as `"PT0S"`, hence 0 and eligible) is at most 60 seconds, and with
all metadata batches succeeding the filter returns exactly the eligible
ids of every batch. -/
theorem c5_duration_filter :
    parseDuration "PT4M13S" = 253 ∧
    parseDuration "PT1H" = 3600 ∧
    parseDuration "" = 0 ∧
    parseDuration "one minute" = 0 ∧
    (∀ (items : List VideoItem) (i : String),
      i ∈ shortIdsOfItems items ↔
        ∃ it ∈ items, it.id = i ∧
          parseDuration (if it.duration = "" then "PT0S" else it.duration) ≤ 60) ∧
    (∀ (api : List String → Option (List VideoItem)) (ids : List String),
      (∀ b ∈ chunk50 ids, api b ≠ none) →
      filterShorts api ids =
        ((chunk50 ids).map (fun b => shortIdsOfItems ((api b).getD []))).flatten) := by
  refine ⟨by decide, by decide, by decide, by decide, ?_, ?_⟩
  · intro items i
    unfold shortIdsOfItems
    simp only [List.mem_map, List.mem_filter, decide_eq_true_eq]
    constructor
    · rintro ⟨it, ⟨hmem, hdur⟩, rfl⟩
      exact ⟨it, hmem, rfl, hdur⟩
    · rintro ⟨it, hmem, rfl, hdur⟩
      exact ⟨it, ⟨hmem, hdur⟩, rfl⟩
  · intro api ids h
    unfold filterShorts
    rw [filterShortsGo_success api _ [] h]
    simp

/-- Witness for C5: a single successful batch with a 30-second short, a
2-minute video and an empty-duration item; exactly the 30-second and the
empty-duration ids survive. -/
theorem c5_duration_filter_witness :
    (∀ b ∈ chunk50 ["a", "b", "c"], c5Api b ≠ none) ∧
    filterShorts c5Api ["a", "b", "c"] =
      ((chunk50 ["a", "b", "c"]).map
        (fun b => shortIdsOfItems ((c5Api b).getD []))).flatten ∧
    filterShorts c5Api ["a", "b", "c"] = ["a", "c"] :=
  ⟨by decide, c5_duration_filter.2.2.2.2.2 c5Api ["a", "b", "c"] (by decide), by decide⟩

/-! ## C10 -/

/-- If any metadata batch fails, the whole batch loop fails, discarding
ids accepted from batches already processed. -/
theorem filterShortsGo_failure (api : List String → Option (List VideoItem))
    (bs : List (List String)) (acc : List String)
    (h : ∃ b ∈ bs, api b = none) :
    filterShortsGo api bs acc = none := by
  induction bs generalizing acc with
  | nil => simp at h
  | cons b bs ih =>
    cases hb : api b with
    | none => simp [filterShortsGo, hb]
    | some items =>
      simp only [filterShortsGo, hb]
      obtain ⟨b', hb', hnone⟩ := h
      rcases List.mem_cons.mp hb' with rfl | hmem
      · rw [hb] at hnone
        exact Option.noConfusion hnone
      · exact ih _ ⟨b', hmem, hnone⟩

/-- When no search page fails, the pagination loop reaches the end and
returns a result. -/
theorem getAllShortsGo_ok (api : List String → Option (List VideoItem))
    (pages : List (Option (List String))) (acc : List String)
    (h : ∀ pg ∈ pages, pg ≠ none) :
    ∃ res, getAllShortsGo api pages acc = Except.ok res := by
  induction pages generalizing acc with
  | nil => exact ⟨acc, rfl⟩
  | cons pg rest ih =>
    cases pg with
    | none => exact absurd rfl (h none (List.mem_cons_self none rest))
    | some ids =>
      exact ih _ (fun p hp => h p (List.mem_cons_of_mem _ hp))

/-- C10: a failing duration-metadata batch inside the shorts filter makes
the whole filter call return the empty list (ids accepted from earlier
successful batches in that call are discarded too); the failure does not
propagate — the pagination loop treats such a page as containing zero
shorts and continues exactly as if the page were absent — and pagination
only fails on a failing search page, never on a failing metadata batch. -/
theorem c10_metadata_failure_semantics (api : List String → Option (List VideoItem)) :
    (∀ ids, (∃ b ∈ chunk50 ids, api b = none) → filterShorts api ids = []) ∧
    (∀ ids rest, (∃ b ∈ chunk50 ids, api b = none) →
      getAllShortsFromChannel (some ids :: rest) api =
        getAllShortsFromChannel rest api) ∧
    (∀ pages, (∀ pg ∈ pages, pg ≠ none) →
      ∃ res, getAllShortsFromChannel pages api = Except.ok res) := by
  have hfilter : ∀ ids, (∃ b ∈ chunk50 ids, api b = none) → filterShorts api ids = [] := by
    intro ids h
    unfold filterShorts
    rw [filterShortsGo_failure api _ [] h]
  refine ⟨hfilter, ?_, ?_⟩
  · intro ids rest h
    unfold getAllShortsFromChannel
    show getAllShortsGo api rest ([] ++ (if ids = [] then [] else filterShorts api ids)) = _
    by_cases hids : ids = []
    · rw [if_pos hids]
      rfl
    · rw [if_neg hids, hfilter ids h]
      rfl
  · intro pages h
    exact getAllShortsGo_ok api pages [] h

/-- Witness for C10: 51 ids split into a successful 50-id batch and a
failing 1-id batch; the filter returns the empty list, and the pagination
loop carries on to the next page unchanged. -/
theorem c10_metadata_failure_witness :
    (∃ b ∈ chunk50 c10Ids, c10Api b = none) ∧
    filterShorts c10Api c10Ids = [] ∧
    getAllShortsFromChannel (some c10Ids :: c6Pages) c10Api =
      getAllShortsFromChannel c6Pages c10Api :=
  ⟨by decide,
    (c10_metadata_failure_semantics c10Api).1 c10Ids (by decide),
    (c10_metadata_failure_semantics c10Api).2.1 c10Ids c6Pages (by decide)⟩

/-! ## C8 -/

theorem singleRow_eq_some {α : Type} (l : List α) (x : α)
    (h : singleRow l = some x) : l = [x] := by
  cases l with
  | nil => exact Option.noConfusion h
  | cons a rest =>
    cases rest with
    | nil =>
      simp only [singleRow, Option.some.injEq] at h
      rw [h]
    | cons b rest2 => exact Option.noConfusion h

theorem singleRow_none_short {α : Type} (l : List α)
    (h : singleRow l = none) (hlen : l.length ≤ 1) : l = [] := by
  cases l with
  | nil => rfl
  | cons a rest =>
    cases rest with
    | nil => simp [singleRow] at h
    | cons b rest2 => simp at hlen

theorem filter_single_of_mem {α : Type} (l : List α) (p : α → Bool) (e : α)
    (he : e ∈ l.filter p) (hlen : (l.filter p).length ≤ 1) : l.filter p = [e] := by
  cases hf : l.filter p with
  | nil => rw [hf] at he; exact absurd he (List.not_mem_nil e)
  | cons x rest =>
    rw [hf] at he hlen
    rw [List.length_cons] at hlen
    have hrest : rest = [] := List.length_eq_zero.mp (by omega)
    subst hrest
    simp only [List.mem_singleton] at he
    rw [he]

/-- With distinct embedding ids, at most one row matches a given id. -/
theorem countId_le_one (l : List ScriptEmbedding) (eid : String)
    (h : (l.map ScriptEmbedding.id).Nodup) :
    (l.filter (fun e => e.id = eid)).length ≤ 1 := by
  induction l with
  | nil => simp
  | cons a as ih =>
    rw [List.map_cons, List.nodup_cons] at h
    by_cases ha : a.id = eid
    · have hnil : as.filter (fun e => e.id = eid) = [] := by
        rw [List.filter_eq_nil_iff]
        intro x hx
        simp only [decide_eq_true_eq]
        intro hxe
        exact h.1 (ha ▸ hxe ▸ List.mem_map_of_mem ScriptEmbedding.id hx)
      simp [List.filter_cons, ha, hnil]
    · simp only [List.filter_cons, ha, decide_False, if_false]
      exact ih h.2

/-- Counting elements surviving a filter after a map: if every mapped
element that passes `p` came from an element passing `q`, the filtered
image is no longer than the `q`-filtered source. -/
theorem length_filter_map_le {α β : Type} (l : List α) (f : α → β)
    (p : β → Bool) (q : α → Bool)
    (h : ∀ x ∈ l, p (f x) = true → q x = true) :
    ((l.map f).filter p).length ≤ (l.filter q).length := by
  induction l with
  | nil => exact Nat.le_refl 0
  | cons a as ih =>
    have ih' := ih (fun x hx => h x (List.mem_cons_of_mem _ hx))
    simp only [List.map_cons, List.filter_cons]
    by_cases hp : p (f a) = true
    · rw [if_pos hp, if_pos (h a (List.mem_cons_self a as) hp)]
      simpa using ih'
    · rw [if_neg hp]
      by_cases hq : q a = true
      · rw [if_pos hq]
        exact Nat.le_succ_of_le ih'
      · rw [if_neg hq]
        exact ih'

/-- If only rows matching `eid` may hold `vid`, then after the update write
the holders of `vid` are among the rows matching `eid`. -/
theorem assignedCount_update_le_one (l : List ScriptEmbedding) (eid vid : String)
    (hother : ∀ x ∈ l, x.video_id = some vid → x.id = eid)
    (hid : (l.filter (fun e => e.id = eid)).length ≤ 1) :
    assignedCount
        (l.map (fun e => if e.id = eid then { e with video_id := some vid } else e))
        vid ≤ 1 := by
  unfold assignedCount
  refine Nat.le_trans
    (length_filter_map_le l _ _ (fun e => decide (e.id = eid)) ?_) hid
  intro x hx hp
  simp only [decide_eq_true_eq] at hp ⊢
  by_cases hxe : x.id = eid
  · exact hxe
  · rw [if_neg hxe] at hp
    exact hother x hx hp

/-- Updating rows matching `eid` to hold `vid` cannot increase the number
of holders of a different id `w`. -/
theorem assignedCount_update_other (l : List ScriptEmbedding) (eid vid w : String)
    (hw : w ≠ vid) :
    assignedCount
        (l.map (fun e => if e.id = eid then { e with video_id := some vid } else e))
        w ≤
      assignedCount l w := by
  unfold assignedCount
  refine length_filter_map_le l _ _ _ ?_
  intro x hx hp
  simp only [decide_eq_true_eq] at hp ⊢
  by_cases hxe : x.id = eid
  · rw [if_pos hxe] at hp
    simp only at hp
    exact absurd (Option.some.inj hp).symm hw
  · rw [if_neg hxe] at hp
    exact hp

/-- The update write preserves the uniqueness invariant provided only the
target embedding may currently hold the video id. -/
theorem assignApplyUpdate_preserves (st : EmbStore) (eid vid : String)
    (hinv : AtMostOneAssigned st.embeddings)
    (hids : (st.embeddings.map ScriptEmbedding.id).Nodup)
    (hother : ∀ x ∈ st.embeddings, x.video_id = some vid → x.id = eid) :
    AtMostOneAssigned (assignApplyUpdate st eid vid).2.embeddings := by
  intro w
  show assignedCount
      (st.embeddings.map
        (fun e => if e.id = eid then { e with video_id := some vid } else e)) w ≤ 1
  by_cases hw : w = vid
  · subst hw
    exact assignedCount_update_le_one _ _ _ hother (countId_le_one _ _ hids)
  · exact Nat.le_trans (assignedCount_update_other _ _ _ _ hw) (hinv w)

/-- C8: under the invariant that at most one embedding row holds any given
non-null `video_id` (and distinct row ids), assigning a `video_id` already
held by a different embedding is rejected with an error response and
leaves the embeddings unchanged; and whatever the request, the operation
preserves the invariant. -/
theorem c8_unique_assignment (st : EmbStore) (embedding_id video_id : String)
    (hinv : AtMostOneAssigned st.embeddings)
    (hids : (st.embeddings.map ScriptEmbedding.id).Nodup) :
    ((∃ e ∈ st.embeddings, e.video_id = some video_id ∧ e.id ≠ embedding_id) →
      (assignVideoToEmbedding st embedding_id video_id).1 ≠ AssignOutcome.ok ∧
      (assignVideoToEmbedding st embedding_id video_id).2 = st) ∧
    AtMostOneAssigned (assignVideoToEmbedding st embedding_id video_id).2.embeddings := by
  constructor
  · rintro ⟨e, he, hev, hene⟩
    unfold assignVideoToEmbedding
    by_cases h1 : embedding_id = ""
    · rw [if_pos h1]
      exact ⟨fun hc => AssignOutcome.noConfusion hc, rfl⟩
    rw [if_neg h1]
    by_cases h2 : video_id = ""
    · rw [if_pos h2]
      exact ⟨fun hc => AssignOutcome.noConfusion hc, rfl⟩
    rw [if_neg h2]
    by_cases h3 : ¬ st.videos.contains video_id
    · rw [if_pos h3]
      exact ⟨fun hc => AssignOutcome.noConfusion hc, rfl⟩
    rw [if_neg h3]
    have hfe : st.embeddings.filter (fun x => x.video_id = some video_id) = [e] :=
      filter_single_of_mem _ _ e
        (List.mem_filter.mpr ⟨he, by simp [hev]⟩) (hinv video_id)
    rw [hfe]
    simp only [singleRow]
    rw [if_pos hene]
    exact ⟨fun hc => AssignOutcome.noConfusion hc, rfl⟩
  · unfold assignVideoToEmbedding
    by_cases h1 : embedding_id = ""
    · rw [if_pos h1]; exact hinv
    rw [if_neg h1]
    by_cases h2 : video_id = ""
    · rw [if_pos h2]; exact hinv
    rw [if_neg h2]
    by_cases h3 : ¬ st.videos.contains video_id
    · rw [if_pos h3]; exact hinv
    rw [if_neg h3]
    cases hrow : singleRow (st.embeddings.filter (fun e => e.video_id = some video_id)) with
    | some e =>
      simp only [hrow]
      by_cases hene : e.id ≠ embedding_id
      · rw [if_pos hene]
        exact hinv
      · rw [if_neg hene]
        push_neg at hene
        have hfe := singleRow_eq_some _ _ hrow
        refine assignApplyUpdate_preserves st embedding_id video_id hinv hids ?_
        intro x hx hxv
        have hxmem : x ∈ st.embeddings.filter (fun e => e.video_id = some video_id) :=
          List.mem_filter.mpr ⟨hx, by simp [hxv]⟩
        rw [hfe, List.mem_singleton] at hxmem
        rw [hxmem]
        exact hene
    | none =>
      simp only [hrow]
      have hfe : st.embeddings.filter (fun e => e.video_id = some video_id) = [] :=
        singleRow_none_short _ hrow (hinv video_id)
      refine assignApplyUpdate_preserves st embedding_id video_id hinv hids ?_
      intro x hx hxv
      have hxmem : x ∈ st.embeddings.filter (fun e => e.video_id = some video_id) :=
        List.mem_filter.mpr ⟨hx, by simp [hxv]⟩
      rw [hfe] at hxmem
      exact absurd hxmem (List.not_mem_nil x)

/-- Witness for C8: assigning video `"v1"`, already held by embedding
`"e1"`, to the pending embedding `"e2"` is rejected and changes nothing. -/
theorem c8_unique_assignment_witness :
    AtMostOneAssigned c8Store.embeddings ∧
    (c8Store.embeddings.map ScriptEmbedding.id).Nodup ∧
    (∃ e ∈ c8Store.embeddings, e.video_id = some "v1" ∧ e.id ≠ "e2") ∧
    ((assignVideoToEmbedding c8Store "e2" "v1").1 ≠ AssignOutcome.ok ∧
      (assignVideoToEmbedding c8Store "e2" "v1").2 = c8Store) ∧
    AtMostOneAssigned (assignVideoToEmbedding c8Store "e2" "v1").2.embeddings := by
  have h := c8_unique_assignment c8Store "e2" "v1" (by decide) (by decide)
  exact ⟨by decide, by decide, by decide, h.1 (by decide), h.2⟩

end SMAT
